import Mathlib

/-!
Verification of the `JobQueue` class (src/JobQueue.ts): an in-process
asynchronous job scheduler with a FIFO pending queue, a concurrency gate
(`activeJobs` vs `concurrencyLimit`), a sliding-window rate limiter
(`jobStartTimes`, `enforceRateLimit`), a per-job timeout race
(`executeWithTimeout`), and a disposal protocol (`dispose`).

The development is a shallow embedding of the source:

* JavaScript `Error` objects created by the class carry only a message, so
  they are modelled by `JSError`.  The spec's taxonomy names (`DisposedError`,
  `TimeoutError`) correspond to the two message constants the code uses.
* Timestamps (`Date.now()`) are natural numbers of milliseconds; durations
  computed by JS number subtraction are modelled as `Int`.
* `enforceRateLimit` is translated as a pure function of the pieces of state
  it reads and writes: the configured `rateLimit` (`none` models `Infinity`),
  the current `jobStartTimes` array, and the value of `Date.now()` at entry.
  Its second component is the time at which its `await` completes (entry time
  plus the computed sleep), which is when the caller (`executeJob`) resumes.
* `Promise.race` is modelled by `promiseRace`: each racer is a settlement
  paired with the time it settles; the earliest settlement wins and is the
  single outcome delivered (ties go to the earlier element of the list, i.e.
  the task promise which is listed first in the source).
* The mutable scheduler state (`queue`, `activeJobs`, `isDisposed`) is a
  state machine `QState` with ghost history fields, and the event-loop turns
  of the source are the `Step` relation; see below.
-/

namespace JobQueue

/-- A JavaScript `Error` as created by the class: only the message matters. -/
structure JSError where
  message : String
deriving DecidableEq

/-- The error thrown by `schedule` after disposal and used by `dispose` to
reject queued entries: `new Error('Queue has been disposed')`. -/
def disposedError : JSError := ⟨"Queue has been disposed"⟩

/-- The error the timeout timer rejects with:
`new Error('Job timed out')`. -/
def timedOutError : JSError := ⟨"Job timed out"⟩

/-- Settlement of a JS promise: resolved with a value or rejected with an
error. -/
inductive Settlement (α : Type) where
  | resolved : α → Settlement α
  | rejected : JSError → Settlement α
deriving DecidableEq

/-- Model of `Promise.race`: each racer is `(settleTime, settlement)`.
The promise that settles first wins; on a tie the racer listed first wins
(the task promise is listed before the timer in the source).  Exactly one
settlement is delivered: the result is a single value. -/
def promiseRace {α : Type} : List (Nat × Settlement α) → Option (Nat × Settlement α)
  | [] => none
  | x :: xs => some (xs.foldl (fun acc y => if y.1 < acc.1 then y else acc) x)

/-- Shallow embedding of `JobQueue.executeWithTimeout`:
`Promise.race([fn(...args), new Promise((_, timeoutReject) =>
setTimeout(() => timeoutReject(new Error('Job timed out')), this.timeoutLimit))])`.
The task settles with `taskSettlement` at `taskTime` (measured from task
start); the timer rejects at `timeoutLimit` (the configured limit in ms). -/
def executeWithTimeout {α : Type} (taskTime : Nat) (taskSettlement : Settlement α)
    (timeoutLimit : Nat) : Option (Nat × Settlement α) :=
  promiseRace [(taskTime, taskSettlement), (timeoutLimit, Settlement.rejected timedOutError)]

/-- Timer bookkeeping of one `executeWithTimeout` call: the deadlines passed
to `setTimeout` and the handles passed to `clearTimeout`. -/
structure TimerLog where
  setCalls : List Nat
  clearCalls : List Nat
deriving DecidableEq

/-- The timer activity of `executeWithTimeout` as written in the source: it
calls `setTimeout` once with deadline `timeoutLimit`, stores no timer handle,
and contains no `clearTimeout` call (nor does any other method of the class). -/
def executeWithTimeoutTimerLog (timeoutLimit : Nat) : TimerLog :=
  { setCalls := [timeoutLimit], clearCalls := [] }

/-- Timer callbacks still pending at time `t`: scheduled with a deadline that
has not yet fired and never cleared. -/
def pendingTimerCallbacks (log : TimerLog) (t : Nat) : List Nat :=
  log.setCalls.filter (fun d => decide (t < d ∧ d ∉ log.clearCalls))

/-- Shallow embedding of `JobQueue.enforceRateLimit` acting on the state it
touches.  `rateLimit = none` models `Infinity` (the early return).  Otherwise,
with `now = Date.now()` at entry:
`jobStartTimes = jobStartTimes.filter(time => now - time < 60000)`;
if `jobStartTimes.length >= rateLimit`, `waitTime = 60000 - (now -
jobStartTimes[0])` and, when positive, the job sleeps `waitTime` ms;
finally `jobStartTimes.push(now)` — note the source pushes the `now`
captured at entry, before any sleep.  Returns the updated `jobStartTimes`
and the time at which the call's `await` completes (`now + waitTime` when it
slept, else `now`). -/
def enforceRateLimit (rateLimit : Option Nat) (jobStartTimes : List Nat) (now : Nat) :
    List Nat × Nat :=
  match rateLimit with
  | none => (jobStartTimes, now)
  | some r =>
    let pruned := jobStartTimes.filter (fun time : Nat => decide ((now : Int) - (time : Int) < 60000))
    let resumeTime :=
      if r ≤ pruned.length then
        match pruned with
        | [] => now
        | oldestStart :: _ =>
          let waitTime : Int := 60000 - ((now : Int) - (oldestStart : Int))
          if 0 < waitTime then ((now : Int) + waitTime).toNat else now
      else now
    (pruned ++ [now], resumeTime)

/-- Number of job starts that fall inside the trailing 60000 ms window ending
at time `t` (the window of §8 of the spec: starts `st` with `st ≤ t` and
`t - st < 60000`). -/
def startsInWindow (starts : List Nat) (t : Nat) : Nat :=
  (starts.filter (fun st => decide (st ≤ t ∧ t - st < 60000))).length

/-- The `queueTime` computation at the top of `JobQueue.executeJob`:
`const startTime = Date.now(); const queueTime = startTime - queueStartTime;`
where `queueStartTime` was captured in `schedule`. -/
def executeJobQueueTime (queueStartTime startTime : Nat) : Int :=
  (startTime : Int) - (queueStartTime : Int)

/-- The `job` closure built in `schedule`:
`async () => { await this.enforceRateLimit(); await this.executeJob(...) }`.
It is invoked by `processNextJob` at `dequeueTime`; `executeJob` therefore
captures its `startTime` only when `enforceRateLimit`'s await completes.
Returns the updated `jobStartTimes`, the `startTime` observed by
`executeJob`, and the reported `queueTime`. -/
def jobClosure (rateLimit : Option Nat) (window : List Nat)
    (queueStartTime dequeueTime : Nat) : List Nat × Nat × Int :=
  let afterGate := enforceRateLimit rateLimit window dequeueTime
  (afterGate.1, afterGate.2, executeJobQueueTime queueStartTime afterGate.2)

/-- The completion time of `enforceRateLimit` is never before its entry time:
the call only ever delays. -/
theorem le_enforceRateLimit_resume (rateLimit : Option Nat) (w : List Nat) (now : Nat) :
    now ≤ (enforceRateLimit rateLimit w now).2 := by
  unfold enforceRateLimit
  cases rateLimit with
  | none => exact Nat.le_refl now
  | some r =>
    simp only
    split
    · split
      · exact Nat.le_refl now
      · split
        · omega
        · exact Nat.le_refl now
    · exact Nat.le_refl now

/-- C4: for every scheduled job run with timeout limit `timeoutLimit`: if the
task settles (with a value or an error) strictly before the timer, that exact
settlement is the delivered outcome, unchanged; if the timer fires first, the
delivered outcome is a rejection with message "Job timed out"; the race
delivers exactly one of the two (its result is one settlement value). -/
theorem timeout_race_outcome {α : Type} (taskTime : Nat) (taskSettlement : Settlement α)
    (timeoutLimit : Nat) :
    (taskTime < timeoutLimit →
      executeWithTimeout taskTime taskSettlement timeoutLimit = some (taskTime, taskSettlement)) ∧
    (timeoutLimit < taskTime →
      executeWithTimeout taskTime taskSettlement timeoutLimit =
        some (timeoutLimit, Settlement.rejected timedOutError)) := by
  constructor
  · intro h
    simp only [executeWithTimeout, promiseRace, List.foldl]
    rw [if_neg (by omega)]
  · intro h
    simp only [executeWithTimeout, promiseRace, List.foldl]
    rw [if_pos h]

/-- Witness for `timeout_race_outcome`: a task settling at 100 ms under a
200 ms limit is delivered unchanged; a task settling at 300 ms under a 200 ms
limit is replaced by the "Job timed out" rejection. -/
theorem timeout_race_outcome_witness :
    executeWithTimeout 100 (Settlement.resolved (7 : Nat)) 200 =
      some (100, Settlement.resolved 7) ∧
    executeWithTimeout 300 (Settlement.resolved (7 : Nat)) 200 =
      some (200, Settlement.rejected timedOutError) :=
  ⟨(timeout_race_outcome 100 (Settlement.resolved 7) 200).1 (by decide),
   (timeout_race_outcome 300 (Settlement.resolved 7) 200).2 (by decide)⟩

/-- C2: with `rateLimit = 1` and `concurrencyLimit = 1`, three instant jobs
run sequentially; `enforceRateLimit` is entered at times 0, 1 and 60001 and
the resulting job starts are 0, 60000 and 60001.  The trailing 60000 ms
window ending at 60001 contains two starts, exceeding the limit 1: the code
violates the claimed window bound, because the second call appended its
pre-wait timestamp 1 (which expires at 60001 although the job only started
at 60000). -/
theorem rate_limit_window_violated :
    enforceRateLimit (some 1) [] 0 = ([0], 0) ∧
    enforceRateLimit (some 1) [0] 1 = ([0, 1], 60000) ∧
    enforceRateLimit (some 1) [0, 1] 60001 = ([60001], 60001) ∧
    startsInWindow [0, 60000, 60001] 60001 = 2 ∧
    ¬ startsInWindow [0, 60000, 60001] 60001 ≤ 1 := by decide

/-- C8: the timestamp appended by `enforceRateLimit` is the `now` captured at
entry, before the rate-limit wait, not a fresh "now" taken after the wait.
With `rateLimit = 1`, window `[0]` and entry time 1, the call sleeps until
60000 yet appends 1; a fresh post-wait timestamp would be 60000. -/
theorem stale_timestamp_appended :
    (enforceRateLimit (some 1) [0] 1).2 = 60000 ∧
    (enforceRateLimit (some 1) [0] 1).1 = [0, 1] ∧
    ((enforceRateLimit (some 1) [0] 1).1).getLast? = some 1 ∧
    (1 : Nat) ≠ 60000 := by decide

/-- Exactly one timestamp is appended per `enforceRateLimit` call when rate
limiting is enabled: the updated window is the pruned window plus one entry. -/
theorem one_timestamp_per_call (r : Nat) (w : List Nat) (now : Nat) :
    (enforceRateLimit (some r) w now).1.length =
      (w.filter (fun time : Nat => decide ((now : Int) - (time : Int) < 60000))).length + 1 := by
  simp [enforceRateLimit]

/-- C6 counterexample: a job submitted at time 0 and dequeued at time 1 with
`rateLimit = 1` and window `[0]` waits in the rate gate until 60000; the
reported `queueTime` is 60000, not dequeue − submission = 1, because
`executeJob` captures `startTime` only after `enforceRateLimit` resumes. -/
theorem queue_time_excludes_rate_wait_false :
    (jobClosure (some 1) [0] 0 1).2.2 = 60000 ∧
    ((1 : Int) - (0 : Int) = 1) ∧
    (jobClosure (some 1) [0] 0 1).2.2 ≠ 1 := by decide

/-- C6 amended: the reported `queueTime` equals (execution-start time −
submission time), which is (dequeue − submission) plus the rate-limit wait
served after dequeue; it is always ≥ 0 when the job is dequeued no earlier
than it was submitted. -/
theorem queue_time_from_execution_start (rateLimit : Option Nat) (window : List Nat)
    (queueStartTime dequeueTime : Nat) (h : queueStartTime ≤ dequeueTime) :
    (jobClosure rateLimit window queueStartTime dequeueTime).2.2 =
      ((dequeueTime : Int) - (queueStartTime : Int)) +
        (((enforceRateLimit rateLimit window dequeueTime).2 : Int) - (dequeueTime : Int)) ∧
    0 ≤ (jobClosure rateLimit window queueStartTime dequeueTime).2.2 := by
  have hr := le_enforceRateLimit_resume rateLimit window dequeueTime
  constructor
  · simp only [jobClosure, executeJobQueueTime]
    ring
  · simp only [jobClosure, executeJobQueueTime]
    omega

/-- Witness for `queue_time_from_execution_start` at submission time 0,
dequeue time 1, `rateLimit = 1`, window `[0]`. -/
theorem queue_time_from_execution_start_witness :
    (0 : Nat) ≤ 1 ∧
    ((jobClosure (some 1) [0] 0 1).2.2 =
        ((1 : Int) - (0 : Int)) +
          (((enforceRateLimit (some 1) [0] 1).2 : Int) - (1 : Int)) ∧
      0 ≤ (jobClosure (some 1) [0] 0 1).2.2) :=
  ⟨by decide, queue_time_from_execution_start (some 1) [0] 0 1 (by decide)⟩

/-- C10 counterexample: a task that settles at 100 ms under a 200 ms timeout
has its outcome delivered, yet the timeout timer callback is still pending at
100 ms — the source never calls `clearTimeout`, so the timer is not cancelled
at settlement. -/
theorem timer_cancelled_false :
    executeWithTimeout 100 (Settlement.resolved (42 : Nat)) 200 =
      some (100, Settlement.resolved 42) ∧
    pendingTimerCallbacks (executeWithTimeoutTimerLog 200) 100 = [200] ∧
    pendingTimerCallbacks (executeWithTimeoutTimerLog 200) 100 ≠ [] := by decide

/-- C10 amended: `executeWithTimeout` never issues a `clearTimeout`; its timer
callback remains pending until `timeoutLimit` elapses and only then is gone
(it fires and its rejection is discarded by the already-settled race). -/
theorem timer_never_cancelled (timeoutLimit t : Nat) :
    (executeWithTimeoutTimerLog timeoutLimit).clearCalls = [] ∧
    (t < timeoutLimit →
      pendingTimerCallbacks (executeWithTimeoutTimerLog timeoutLimit) t = [timeoutLimit]) ∧
    (timeoutLimit ≤ t →
      pendingTimerCallbacks (executeWithTimeoutTimerLog timeoutLimit) t = []) := by
  refine ⟨rfl, fun h => ?_, fun h => ?_⟩
  · simp [pendingTimerCallbacks, executeWithTimeoutTimerLog, h]
  · simp [pendingTimerCallbacks, executeWithTimeoutTimerLog]
    omega

/-- Witness for `timer_never_cancelled`: with a 200 ms limit the timer is
still pending at 100 ms and gone at 250 ms. -/
theorem timer_never_cancelled_witness :
    pendingTimerCallbacks (executeWithTimeoutTimerLog 200) 100 = [200] ∧
    pendingTimerCallbacks (executeWithTimeoutTimerLog 200) 250 = [] :=
  ⟨(timer_never_cancelled 200 100).2.1 (by decide),
   (timer_never_cancelled 200 250).2.2 (by decide)⟩

/-!
State machine for the scheduler.  A `QState` holds the mutable fields of the
class that the dispatcher, lifecycle controller and queries touch —
`concurrencyLimit`, `activeJobs`, `queue`, `isDisposed` — plus ghost history
fields that record what happened, for stating the claims:

* `submitted`: ids of entries pushed by `schedule`, in submission order
  (the id of a new entry is `submitted.length`);
* `dispatched`: ids shifted off the queue by `processNextJob`, in order;
* `rateWait`: dequeued entries whose `await this.enforceRateLimit()` has not
  yet completed (their body has not begun);
* `executing`: entries whose body is running (inside `executeJob`, between
  the start of `executeWithTimeout` and settlement);
* `rejections`: the `(entry, error)` rejections issued by `dispose`, in order.

The `queue` holds entry ids; the entries' closures are modelled by the phase
lists.  Timing (the rate limiter's sleep, job durations) is abstracted into
nondeterministic step ordering: `rateDone` may fire at any moment after the
dequeue, which covers every possible rate-limit delay, and `settleExec` at any
moment after the body starts.  One `Step` is one synchronous segment of the
source between suspension points, so the mutations inside it are atomic
exactly as on the JS event loop. -/

structure QState where
  concurrencyLimit : Nat
  isDisposed : Bool
  activeJobs : Int
  queue : List Nat
  submitted : List Nat
  dispatched : List Nat
  rateWait : List Nat
  executing : List Nat
  rejections : List (Nat × JSError)
deriving DecidableEq

/-- Shallow embedding of `JobQueue.processNextJob`: if the queue is empty or
`activeJobs >= concurrencyLimit`, return; otherwise shift the front entry,
increment `activeJobs` and start the entry's `job()` closure, whose first
statement awaits `enforceRateLimit` — the entry enters `rateWait`. -/
def processNextJob (s : QState) : QState :=
  match s.queue with
  | [] => s
  | id :: rest =>
    if (s.concurrencyLimit : Int) ≤ s.activeJobs then s
    else
      { s with queue := rest, activeJobs := s.activeJobs + 1,
               dispatched := s.dispatched ++ [id], rateWait := s.rateWait ++ [id] }

/-- The state mutation of a non-disposed `schedule` call: push an entry with a
fresh id, then call `processNextJob` (both happen in the same synchronous
segment of `schedule`). -/
def scheduleOk (s : QState) : QState :=
  processNextJob
    { s with submitted := s.submitted ++ [s.submitted.length],
             queue := s.queue ++ [s.submitted.length] }

/-- Shallow embedding of `JobQueue.schedule`: throws `Error('Queue has been
disposed')` when `isDisposed`, otherwise performs `scheduleOk`. -/
def schedule (s : QState) : Except JSError QState :=
  if s.isDisposed then Except.error disposedError else Except.ok (scheduleOk s)

/-- Completion of a dequeued entry's rate gate: `await this.enforceRateLimit()`
resolves and `executeJob` runs up to starting the job's body. -/
def beginExecution (s : QState) (id : Nat) : QState :=
  { s with rateWait := s.rateWait.erase id, executing := s.executing ++ [id] }

/-- Settlement of a running job (resolve, reject, or timeout): the `finally`
block of `executeJob` decrements `activeJobs` and calls `processNextJob`. -/
def settleJob (s : QState) (id : Nat) : QState :=
  processNextJob
    { s with executing := s.executing.erase id, activeJobs := s.activeJobs - 1 }

/-- The rejection list produced by the `while` loop of `dispose`: shift each
entry off the front and reject it with `disposedError`, front to back. -/
def drainQueue : List Nat → List (Nat × JSError)
  | [] => []
  | id :: rest => (id, disposedError) :: drainQueue rest

/-- Shallow embedding of `JobQueue.dispose`: set `isDisposed`, then drain the
queue front-to-back rejecting every remaining entry with
`Error('Queue has been disposed')`. -/
def dispose (s : QState) : QState :=
  { s with isDisposed := true,
           rejections := s.rejections ++ drainQueue s.queue,
           queue := [] }

/-- One event-loop turn of the scheduler.  `sched` is a caller invoking
`schedule` on a live queue; `rateDone` is the resolution of a dequeued entry's
rate gate (after any rate-limit sleep); `settleExec` is the settlement of a
running body (success, failure or timeout); `disp` is a caller invoking
`dispose`. -/
inductive Step : QState → QState → Prop where
  | sched (s : QState) (h : s.isDisposed = false) : Step s (scheduleOk s)
  | rateDone (s : QState) (id : Nat) (h : id ∈ s.rateWait) : Step s (beginExecution s id)
  | settleExec (s : QState) (id : Nat) (h : id ∈ s.executing) : Step s (settleJob s id)
  | disp (s : QState) : Step s (dispose s)

/-- The state right after the constructor returns with
`concurrencyLimit = c`. -/
def initState (c : Nat) : QState :=
  { concurrencyLimit := c, isDisposed := false, activeJobs := 0, queue := [],
    submitted := [], dispatched := [], rateWait := [], executing := [], rejections := [] }

/-- States reachable from a freshly constructed queue. -/
inductive Reachable (c : Nat) : QState → Prop where
  | init : Reachable c (initState c)
  | step {s t : QState} : Reachable c s → Step s t → Reachable c t

/-- Any number of event-loop turns. -/
def Steps : QState → QState → Prop := Relation.ReflTransGen Step

/-- The inductive invariant of the scheduler state: `activeJobs` counts the
dequeued-but-unsettled entries; it never exceeds the concurrency limit; the
submission list splits as dispatched, then dispose-rejected, then still
queued; after disposal the queue is empty; before disposal nothing was
rejected. -/
def Inv (s : QState) : Prop :=
  s.activeJobs = ((s.rateWait.length + s.executing.length : Nat) : Int) ∧
  s.activeJobs ≤ (s.concurrencyLimit : Int) ∧
  s.submitted = s.dispatched ++ s.rejections.map Prod.fst ++ s.queue ∧
  (s.isDisposed = true → s.queue = []) ∧
  (s.isDisposed = false → s.rejections = [])

theorem drainQueue_map_fst (q : List Nat) : (drainQueue q).map Prod.fst = q := by
  induction q with
  | nil => rfl
  | cons id rest ih => simp [drainQueue, ih]

theorem processNextJob_isDisposed (s : QState) :
    (processNextJob s).isDisposed = s.isDisposed := by
  unfold processNextJob
  split
  · rfl
  · split <;> rfl

theorem inv_processNextJob {s : QState} (h : Inv s) : Inv (processNextJob s) := by
  obtain ⟨hcount, hle, hfifo, hdq, hrej⟩ := h
  unfold processNextJob
  split
  · exact ⟨hcount, hle, hfifo, hdq, hrej⟩
  · rename_i id rest hq
    split
    · exact ⟨hcount, hle, hfifo, hdq, hrej⟩
    · rename_i hlt
      have hnd : s.isDisposed = false := by
        cases hdisp : s.isDisposed with
        | false => rfl
        | true => rw [hdq hdisp] at hq; cases hq
      have hrejnil : s.rejections = [] := hrej hnd
      refine ⟨?_, ?_, ?_, ?_, ?_⟩
      · simp only [List.length_append, List.length_cons, List.length_nil]
        push_cast
        push_cast at hcount
        omega
      · simp only
        omega
      · simp only [hrejnil, List.map_nil, List.append_nil, List.nil_append] at hfifo ⊢
        rw [hfifo, hq]
        simp
      · intro hdisp
        simp only at hdisp
        rw [hnd] at hdisp
        cases hdisp
      · intro _
        simpa using hrejnil

theorem inv_scheduleOk {s : QState} (h : Inv s) (hd : s.isDisposed = false) :
    Inv (scheduleOk s) := by
  obtain ⟨hcount, hle, hfifo, hdq, hrej⟩ := h
  apply inv_processNextJob
  refine ⟨hcount, hle, ?_, ?_, ?_⟩
  · simp only
    rw [hfifo]
    simp
  · intro hdisp
    simp only at hdisp
    rw [hd] at hdisp
    cases hdisp
  · intro _
    simpa using hrej hd

theorem inv_beginExecution {s : QState} (h : Inv s) {id : Nat} (hm : id ∈ s.rateWait) :
    Inv (beginExecution s id) := by
  obtain ⟨hcount, hle, hfifo, hdq, hrej⟩ := h
  have hlen : (s.rateWait.erase id).length = s.rateWait.length - 1 :=
    List.length_erase_of_mem hm
  have hpos : 1 ≤ s.rateWait.length := List.length_pos.mpr (List.ne_nil_of_mem hm)
  refine ⟨?_, hle, hfifo, hdq, hrej⟩
  simp only [beginExecution, List.length_append, List.length_cons, List.length_nil, hlen]
  push_cast at hcount ⊢
  omega

theorem inv_settleJob {s : QState} (h : Inv s) {id : Nat} (hm : id ∈ s.executing) :
    Inv (settleJob s id) := by
  obtain ⟨hcount, hle, hfifo, hdq, hrej⟩ := h
  apply inv_processNextJob
  have hlen : (s.executing.erase id).length = s.executing.length - 1 :=
    List.length_erase_of_mem hm
  have hpos : 1 ≤ s.executing.length := List.length_pos.mpr (List.ne_nil_of_mem hm)
  refine ⟨?_, ?_, hfifo, hdq, hrej⟩
  · simp only [hlen]
    push_cast at hcount ⊢
    omega
  · simp only
    omega

theorem inv_dispose {s : QState} (h : Inv s) : Inv (dispose s) := by
  obtain ⟨hcount, hle, hfifo, hdq, hrej⟩ := h
  refine ⟨hcount, hle, ?_, fun _ => rfl, ?_⟩
  · simp only [dispose, List.map_append, drainQueue_map_fst, List.append_nil]
    rw [hfifo]
    simp [List.append_assoc]
  · intro hdisp
    simp only [dispose] at hdisp
    cases hdisp

theorem inv_step {s t : QState} (h : Inv s) (hs : Step s t) : Inv t := by
  cases hs with
  | sched hd => exact inv_scheduleOk h hd
  | rateDone id hm => exact inv_beginExecution h hm
  | settleExec id hm => exact inv_settleJob h hm
  | disp => exact inv_dispose h

theorem inv_init (c : Nat) : Inv (initState c) := by
  refine ⟨rfl, ?_, rfl, fun h => rfl, fun _ => rfl⟩
  simp [initState]

theorem reachable_inv {c : Nat} {s : QState} (h : Reachable c s) : Inv s := by
  induction h with
  | init => exact inv_init c
  | step _ hs ih => exact inv_step ih hs

theorem step_isDisposed_mono {s t : QState} (hs : Step s t)
    (hd : s.isDisposed = true) : t.isDisposed = true := by
  cases hs with
  | sched h => rw [h] at hd; cases hd
  | rateDone id hm => simpa [beginExecution] using hd
  | settleExec id hm =>
    simpa [settleJob, processNextJob_isDisposed] using hd
  | disp => rfl

theorem steps_isDisposed_mono {s t : QState} (hs : Steps s t)
    (hd : s.isDisposed = true) : t.isDisposed = true := by
  induction hs with
  | refl => exact hd
  | tail _ h ih => exact step_isDisposed_mono h ih

theorem drainQueue_snd (q : List Nat) : ∀ p ∈ drainQueue q, p.2 = disposedError := by
  induction q with
  | nil => intro p hp; cases hp
  | cons id rest ih =>
    intro p hp
    cases hp with
    | head => rfl
    | tail _ hp => exact ih p hp

/-- C1: in every reachable state, the submission history splits into the
dispatched entries, then the dispose-rejected entries, then the entries still
queued — all in submission order.  In particular the dequeue order
(`dispatched`) is an initial segment of the submission order: strictly FIFO,
nothing reordered or skipped, regardless of rate-limit delays (which only
postpone the `rateDone` step, never a dequeue). -/
theorem fifo_dequeue_order (c : Nat) (s : QState) (h : Reachable c s) :
    s.submitted = s.dispatched ++ s.rejections.map Prod.fst ++ s.queue ∧
    ∃ rest, s.dispatched ++ rest = s.submitted := by
  obtain ⟨-, -, hfifo, -, -⟩ := reachable_inv h
  refine ⟨hfifo, s.rejections.map Prod.fst ++ s.queue, ?_⟩
  rw [hfifo]
  simp [List.append_assoc]

/-- Witness for `fifo_dequeue_order`: the state after two `schedule` calls on
a queue with `concurrencyLimit = 2`. -/
theorem fifo_dequeue_order_witness :
    (scheduleOk (scheduleOk (initState 2))).submitted =
      (scheduleOk (scheduleOk (initState 2))).dispatched ++
        (scheduleOk (scheduleOk (initState 2))).rejections.map Prod.fst ++
        (scheduleOk (scheduleOk (initState 2))).queue ∧
    ∃ rest, (scheduleOk (scheduleOk (initState 2))).dispatched ++ rest =
      (scheduleOk (scheduleOk (initState 2))).submitted :=
  fifo_dequeue_order 2 _
    (Reachable.step (Reachable.step Reachable.init (Step.sched _ rfl))
      (Step.sched _ (by decide)))

/-- C3: in every reachable state, `0 ≤ activeJobs ≤ concurrencyLimit`; the
bound is preserved by every operation, so `active()` never exceeds the limit
and never goes negative. -/
theorem active_count_bounds (c : Nat) (s : QState) (h : Reachable c s) :
    0 ≤ s.activeJobs ∧ s.activeJobs ≤ (s.concurrencyLimit : Int) := by
  obtain ⟨hcount, hle, -, -, -⟩ := reachable_inv h
  refine ⟨?_, hle⟩
  rw [hcount]
  exact Int.natCast_nonneg _

/-- Witness for `active_count_bounds`: the state after one `schedule` call on
a queue with `concurrencyLimit = 3`. -/
theorem active_count_bounds_witness :
    0 ≤ (scheduleOk (initState 3)).activeJobs ∧
    (scheduleOk (initState 3)).activeJobs ≤ ((scheduleOk (initState 3)).concurrencyLimit : Int) :=
  active_count_bounds 3 _ (Reachable.step Reachable.init (Step.sched _ rfl))

/-- C5: `dispose` sets the flag, empties the queue by rejecting every pending
entry front-to-back with the "Queue has been disposed" error, leaves dequeued
and running jobs untouched (they can still settle normally afterwards), is
idempotent, and every `schedule` call in any later state fails with the
disposed error. -/
theorem dispose_behavior (s s' : QState) :
    (dispose s).isDisposed = true ∧
    (dispose s).queue = [] ∧
    (dispose s).rejections = s.rejections ++ drainQueue s.queue ∧
    ((drainQueue s.queue).map Prod.fst = s.queue ∧
      ∀ p ∈ drainQueue s.queue, p.2 = disposedError) ∧
    ((dispose s).executing = s.executing ∧ (dispose s).rateWait = s.rateWait ∧
      (dispose s).activeJobs = s.activeJobs) ∧
    (∀ id ∈ s.executing, Step (dispose s) (settleJob (dispose s) id)) ∧
    dispose (dispose s) = dispose s ∧
    (Steps (dispose s) s' → schedule s' = Except.error disposedError) := by
  refine ⟨rfl, rfl, rfl, ⟨drainQueue_map_fst s.queue, drainQueue_snd s.queue⟩,
    ⟨rfl, rfl, rfl⟩, ?_, ?_, ?_⟩
  · intro id hm
    exact Step.settleExec (dispose s) id hm
  · simp [dispose, drainQueue]
  · intro hsteps
    have hd : s'.isDisposed = true := steps_isDisposed_mono hsteps rfl
    simp [schedule, hd]

/-- State used to witness `dispose_behavior`: entry 5 pending, entry 3 in the
rate gate, entry 4 executing. -/
def dw : QState :=
  { concurrencyLimit := 2, isDisposed := false, activeJobs := 2, queue := [5],
    submitted := [3, 4, 5], dispatched := [3, 4], rateWait := [3], executing := [4],
    rejections := [] }

/-- Witness for `dispose_behavior`: disposing `dw` blocks later `schedule`
calls and a second `dispose` changes nothing. -/
theorem dispose_behavior_witness :
    schedule (dispose dw) = Except.error disposedError ∧
    dispose (dispose dw) = dispose dw :=
  ⟨(dispose_behavior dw (dispose dw)).2.2.2.2.2.2.2 Relation.ReflTransGen.refl,
   (dispose_behavior dw (dispose dw)).2.2.2.2.2.2.1⟩

/-- C7 counterexample: with `concurrencyLimit = 2`, schedule a job, let its
rate gate resolve so its body runs, then schedule a second job.  The second
entry is dequeued (incrementing `activeJobs` to 2) but is still inside
`enforceRateLimit`: its body has not begun, yet `active()` counts it —
`activeJobs ≠ number of currently-executing jobs`, refuting the claim that
the counter is incremented immediately before the body begins running. -/
theorem active_counts_executing_false :
    Reachable 2 (scheduleOk (beginExecution (scheduleOk (initState 2)) 0)) ∧
    (scheduleOk (beginExecution (scheduleOk (initState 2)) 0)).rateWait = [1] ∧
    (scheduleOk (beginExecution (scheduleOk (initState 2)) 0)).executing = [0] ∧
    (scheduleOk (beginExecution (scheduleOk (initState 2)) 0)).activeJobs = 2 ∧
    (scheduleOk (beginExecution (scheduleOk (initState 2)) 0)).activeJobs ≠
      (((scheduleOk (beginExecution (scheduleOk (initState 2)) 0)).executing.length : Nat) : Int) := by
  refine ⟨?_, by decide, by decide, by decide, by decide⟩
  exact Reachable.step
    (Reachable.step (Reachable.step Reachable.init (Step.sched _ rfl))
      (Step.rateDone _ 0 (by decide)))
    (Step.sched _ (by decide))

/-- C7 amended: `activeJobs` is incremented when an entry is dequeued — which
precedes the rate-limit gate, not the body — and decremented when the job
settles; hence in every reachable state `active()` equals the number of
dequeued-but-unsettled jobs: those executing plus those still suspended in
the rate gate. -/
theorem active_counts_dequeued_unsettled (c : Nat) (s : QState) (h : Reachable c s) :
    s.activeJobs = ((s.rateWait.length + s.executing.length : Nat) : Int) :=
  (reachable_inv h).1

/-- Witness for `active_counts_dequeued_unsettled`: after one `schedule` on a
fresh queue, `activeJobs = 1` with one entry in the rate gate and none
executing. -/
theorem active_counts_dequeued_unsettled_witness :
    (scheduleOk (initState 2)).activeJobs =
      (((scheduleOk (initState 2)).rateWait.length +
        (scheduleOk (initState 2)).executing.length : Nat) : Int) :=
  active_counts_dequeued_unsettled 2 _ (Reachable.step Reachable.init (Step.sched _ rfl))

/-- C9 counterexample: with `concurrencyLimit = 2`, after one `schedule` the
first entry (id 0) is dequeued and its admission is still in progress (it is
in `rateWait`).  A second `schedule` call is a legal step of the reachable
execution and dequeues the later entry (id 1) while entry 0 is still in its
rate gate: the dispatcher does not wait for the front entry's admission to
conclude. -/
theorem no_dequeue_during_rate_wait_false :
    Reachable 2 (scheduleOk (initState 2)) ∧
    0 ∈ (scheduleOk (initState 2)).rateWait ∧
    Step (scheduleOk (initState 2)) (scheduleOk (scheduleOk (initState 2))) ∧
    (scheduleOk (scheduleOk (initState 2))).dispatched =
      (scheduleOk (initState 2)).dispatched ++ [1] ∧
    0 ∈ (scheduleOk (scheduleOk (initState 2))).rateWait := by
  refine ⟨Reachable.step Reachable.init (Step.sched _ rfl), by decide,
    Step.sched _ (by decide), by decide, by decide⟩

/-- C9 amended: a dispatch attempt dequeues the front entry whenever the queue
is nonempty and `activeJobs < concurrencyLimit`, regardless of whether a
previously dequeued entry's admission (rate-limit wait) is still in progress;
the dequeued entry is always the front one, so dequeue order remains FIFO,
but entries are not held back behind an in-progress admission. -/
theorem dequeue_gated_only_by_concurrency (s : QState) (id : Nat) (rest : List Nat)
    (hq : s.queue = id :: rest) (hc : s.activeJobs < (s.concurrencyLimit : Int)) :
    (processNextJob s).dispatched = s.dispatched ++ [id] ∧
    (processNextJob s).queue = rest ∧
    (processNextJob s).rateWait = s.rateWait ++ [id] ∧
    (processNextJob s).activeJobs = s.activeJobs + 1 := by
  have hnle : ¬ ((s.concurrencyLimit : Int) ≤ s.activeJobs) := not_le.mpr hc
  simp [processNextJob, hq, hnle]

/-- State used to witness `dequeue_gated_only_by_concurrency`: entry 3 is
dequeued with its admission still in progress (in `rateWait`) while entry 7
waits at the front of the queue and the concurrency gate is open. -/
def rateWaitState : QState :=
  { concurrencyLimit := 2, isDisposed := false, activeJobs := 1, queue := [7],
    submitted := [3, 7], dispatched := [3], rateWait := [3], executing := [],
    rejections := [] }

/-- Witness for `dequeue_gated_only_by_concurrency` at `rateWaitState`. -/
theorem dequeue_gated_only_by_concurrency_witness :
    (processNextJob rateWaitState).dispatched = rateWaitState.dispatched ++ [7] ∧
    (processNextJob rateWaitState).queue = [] ∧
    (processNextJob rateWaitState).rateWait = rateWaitState.rateWait ++ [7] ∧
    (processNextJob rateWaitState).activeJobs = rateWaitState.activeJobs + 1 :=
  dequeue_gated_only_by_concurrency rateWaitState 7 [] rfl (by decide)

end JobQueue
